import Mathlib

/-!
Verification of `app/main.py`: a FastAPI facade over the Google Drive v3 API
exposing list / download / upload / delete / rename operations on the files of
one configured folder.

Embedding conventions:
* Remote (Google Drive) calls are modelled as explicit arguments of the
  endpoint handlers: a handler receives the outcome of each remote call it
  issues, as an `Except String α` (the `String` is the exception message,
  i.e. `str(e)` in the Python `except` clause).
* Requests the handlers send to the remote service are reified as structures
  (`DriveQuery`, `CreateRequest`, `UpdateRequest`) so that theorems can speak
  about exactly what is sent.
* The remote service itself is external to the repository; where a claim needs
  its behaviour (query evaluation, update/delete state transitions), that
  behaviour is modelled from the specification and marked as such in the
  doc comment.
* Bytes are modelled as `Nat` (no byte arithmetic occurs in the source).
-/

namespace UploadApp

/-- A file stored in the remote service, with the fields the source reads:
identifier, display name, MIME type, modification time, parent folders and
trashed flag (the last two are what the listing query inspects). -/
structure DriveFile where
  id : String
  name : String
  mimeType : String
  modifiedTime : String
  parents : List String
  trashed : Bool
deriving Repr, DecidableEq

/-- The remote state: the files the external service currently stores. -/
abbrev DriveState := List DriveFile

/-- Python truthiness of an optional string (`if extension:` in the source):
`None` and the empty string are falsy, every other string is truthy. -/
def strTruthy : Option String → Bool
  | none => false
  | some s => !(s == "")

/-- `startsWithChars hay sub`: does the character list `hay` start with `sub`? -/
def startsWithChars : List Char → List Char → Bool
  | _, [] => true
  | [], _ :: _ => false
  | a :: as, b :: bs => a == b && startsWithChars as bs

/-- `hasSubChars sub hay`: does `hay` contain `sub` as a contiguous run? -/
def hasSubChars (sub : List Char) : List Char → Bool
  | [] => startsWithChars [] sub
  | a :: t => startsWithChars (a :: t) sub || hasSubChars sub t

/-- `substrOf sub hay`: is `sub` a substring of `hay`? Used to give semantics
to the `name contains` clause of a Drive query. -/
def substrOf (sub hay : String) : Bool :=
  hasSubChars sub.data hay.data

/-- The query string built by `list_files` (main.py lines 47-49):
`'{FOLDER_ID}' in parents and trashed = false`, plus
` and name contains '.{extension}'` when the extension parameter is truthy. -/
def buildQuery (folderId : String) (extension : Option String) : String :=
  let query := "\x27" ++ folderId ++ "\x27 in parents and trashed = false"
  if strTruthy extension then
    query ++ " and name contains \x27." ++ extension.getD "" ++ "\x27"
  else
    query

/-- Structured form of a Drive listing query: the folder whose children are
selected (non-trashed), and an optional `name contains` constraint. -/
structure DriveQuery where
  folderId : String
  nameContains : Option String
deriving Repr, DecidableEq

/-- Rendering a structured query back to the Drive query-language string. -/
def renderQuery (q : DriveQuery) : String :=
  let base := "\x27" ++ q.folderId ++ "\x27 in parents and trashed = false"
  match q.nameContains with
  | some s => base ++ " and name contains \x27" ++ s ++ "\x27"
  | none => base

/-- The structured query `list_files` sends: folder scope, plus a
`name contains '.{extension}'` clause exactly when the extension is truthy. -/
def listQuery (folderId : String) (extension : Option String) : DriveQuery :=
  { folderId := folderId
    nameContains :=
      if strTruthy extension then some ("." ++ extension.getD "") else none }

/-- Modelled from the spec: evaluation of a listing query by the external
service ("selecting non-trashed items inside the configured folder,
additionally constrained to names containing the extension substring when
supplied"). -/
def queryMatches (q : DriveQuery) (f : DriveFile) : Bool :=
  f.parents.contains q.folderId && !f.trashed &&
    match q.nameContains with
    | some s => substrOf s f.name
    | none => true

/-- Modelled from the spec: the external `files().list` call returns the files
of the remote state that match the query. -/
def driveList (state : DriveState) (q : DriveQuery) : List DriveFile :=
  state.filter (queryMatches q)

/-- The JSON body returned by `GET /files`. -/
structure ListResponse where
  count : Nat
  files : List DriveFile
deriving Repr, DecidableEq

/-- The `list_files` endpoint (main.py lines 42-58): build the query, issue
one list call against the remote state, return `count` plus the raw list. -/
def list_files (folderId : String) (extension : Option String)
    (state : DriveState) : ListResponse :=
  let files := driveList state (listQuery folderId extension)
  { count := files.length, files := files }

/-- The per-request error produced by a handler: the status code and the
`detail` field of FastAPI's `HTTPException`. -/
structure HTTPError where
  status : Nat
  detail : String
deriving Repr, DecidableEq

/-- The process environment read at startup: the two optional variables
`GOOGLE_SERVICE_ACCOUNT_FILE` and `GOOGLE_DRIVE_FOLDER_ID` as `os.getenv`
returns them (`none` when unset). -/
structure Env where
  googleServiceAccountFile : Option String
  googleDriveFolderId : Option String
deriving Repr, DecidableEq

/-- The application value produced when startup succeeds: the two settings
plus the HTTP routes, which the source registers (via decorators) only after
the configuration check has passed. -/
structure App where
  serviceAccountFile : String
  folderId : String
  routes : List String
deriving Repr, DecidableEq

/-- Module-level startup (main.py lines 19-31 and the route decorators):
read the two environment settings, raise `RuntimeError` if either is falsy
(absent or empty), otherwise build the client and register the routes. -/
def startup (env : Env) : Except String App :=
  let serviceAccountFile := env.googleServiceAccountFile
  let folderId := env.googleDriveFolderId
  if !strTruthy serviceAccountFile || !strTruthy folderId then
    .error "Missing GOOGLE_SERVICE_ACCOUNT_FILE or GOOGLE_DRIVE_FOLDER_ID in .env"
  else
    .ok { serviceAccountFile := serviceAccountFile.getD ""
          folderId := folderId.getD ""
          routes := ["/", "/files", "/download/\x7bfile_id\x7d", "/upload",
                     "/delete/\x7bfile_id\x7d", "/rename/\x7bfile_id\x7d"] }

/-- The routes served by a startup outcome: none when startup failed. -/
def registeredRoutes : Except String App → List String
  | .ok a => a.routes
  | .error _ => []

/-- One step of the `MediaIoBaseDownload` transfer: the chunk written to the
buffer by `next_chunk()` and the `done` flag it returns. -/
abbrev ChunkStep := List Nat × Bool

/-- The chunk loop of `download_file` (main.py lines 73-76), consuming the
finite trace of steps the remote transfer yields: append each fetched chunk
to the buffer and exit as soon as a step reports done. -/
def chunkLoop (buf : List Nat) : List ChunkStep → List Nat
  | [] => buf
  | step :: rest =>
    if step.2 then buf ++ step.1 else chunkLoop (buf ++ step.1) rest

/-- The same loop over an unbounded stream of `next_chunk` results, with
explicit fuel: `none` means the fuel ran out before the transfer reported
done (the Python loop would still be running). `i` is the index of the next
call, `buf` the buffer accumulated so far. -/
def downloadLoop (nextChunk : Nat → ChunkStep) : Nat → Nat → List Nat → Option (List Nat)
  | 0, _, _ => none
  | fuel + 1, i, buf =>
    let step := nextChunk i
    let buf2 := buf ++ step.1
    if step.2 then some buf2 else downloadLoop nextChunk fuel (i + 1) buf2

/-- The response of a successful `GET /download/{file_id}`: the streamed
bytes, the media type and the `Content-Disposition` header. -/
structure DownloadResponse where
  body : List Nat
  mediaType : String
  contentDisposition : String
deriving Repr, DecidableEq

/-- The `download_file` endpoint (main.py lines 64-89). `getMediaChunks`
is the remote transfer started by `files().get_media`: either an exception
or the finite trace of `next_chunk` steps; `getName` is the second remote
call `files().get(fileId=file_id, fields="name")`. Any exception from either
call becomes a 500 `HTTPException` carrying the exception message. -/
def download_file (file_id : String)
    (getMediaChunks : String → Except String (List ChunkStep))
    (getName : String → Except String String) : Except HTTPError DownloadResponse :=
  match getMediaChunks file_id with
  | .error e => .error { status := 500, detail := e }
  | .ok steps =>
    let body := chunkLoop [] steps
    match getName file_id with
    | .error e => .error { status := 500, detail := e }
    | .ok filename =>
      .ok { body := body
            mediaType := "application/octet-stream"
            contentDisposition := "attachment; filename=" ++ filename }

/-- The multipart payload of `POST /upload`: declared filename, declared
content type and the bytes read from the request. -/
structure UploadFileIn where
  filename : String
  contentType : String
  content : List Nat
deriving Repr, DecidableEq

/-- The `file_metadata` dict built by `upload_file`. -/
structure FileMetadata where
  name : String
  parents : List String
deriving Repr, DecidableEq

/-- The `files().create` request `upload_file` sends: metadata, media bytes,
the media MIME type, and the projection of fields requested back. -/
structure CreateRequest where
  metadata : FileMetadata
  media : List Nat
  mimetype : String
  fields : String
deriving Repr, DecidableEq

/-- What the remote service answers to a create / update call when the
requested fields are `id, name`. -/
structure CreatedFile where
  id : String
  name : String
deriving Repr, DecidableEq

/-- The JSON body of a successful `POST /upload`. -/
structure UploadResponse where
  id : String
  name : String
deriving Repr, DecidableEq

/-- The create request built by `upload_file` (main.py lines 102-116):
metadata name is the declared filename, parents is the single configured
folder, media is the payload read into memory. -/
def uploadCreateRequest (folderId : String) (file : UploadFileIn) : CreateRequest :=
  { metadata := { name := file.filename, parents := [folderId] }
    media := file.content
    mimetype := file.contentType
    fields := "id, name" }

/-- The `upload_file` endpoint (main.py lines 95-122): issue one create call
with the built request; on success return the identifier and name assigned by
the remote service, on exception a 500 error with the message. -/
def upload_file (folderId : String) (file : UploadFileIn)
    (create : CreateRequest → Except String CreatedFile) : Except HTTPError UploadResponse :=
  match create (uploadCreateRequest folderId file) with
  | .error e => .error { status := 500, detail := e }
  | .ok uploaded => .ok { id := uploaded.id, name := uploaded.name }

/-- The JSON body of a successful `DELETE /delete/{file_id}`. -/
structure MessageResponse where
  message : String
deriving Repr, DecidableEq

/-- The `delete_file` endpoint (main.py lines 127-137): issue one delete
call; success returns a confirmation message, exception a 500 error. -/
def delete_file (file_id : String)
    (deleteCall : String → Except String Unit) : Except HTTPError MessageResponse :=
  match deleteCall file_id with
  | .ok _ => .ok { message := "File " ++ file_id ++ " deleted successfully" }
  | .error e => .error { status := 500, detail := e }

/-- The `files().update` request `rename_file` sends: the target identifier,
the body `{"name": new_name}` and the fields requested back. -/
structure UpdateRequest where
  fileId : String
  bodyName : String
  fields : String
deriving Repr, DecidableEq

/-- The update request built by `rename_file` (main.py lines 147-151). -/
def renameUpdateRequest (file_id new_name : String) : UpdateRequest :=
  { fileId := file_id, bodyName := new_name, fields := "id, name" }

/-- The JSON body of a successful `PATCH /rename/{file_id}`. -/
structure RenameResponse where
  id : String
  new_name : String
deriving Repr, DecidableEq

/-- The `rename_file` endpoint (main.py lines 141-155): issue one update
call; success returns the identifier and updated name the remote reports,
exception a 500 error with the message. -/
def rename_file (file_id new_name : String)
    (update : UpdateRequest → Except String CreatedFile) : Except HTTPError RenameResponse :=
  match update (renameUpdateRequest file_id new_name) with
  | .ok updated => .ok { id := updated.id, new_name := updated.name }
  | .error e => .error { status := 500, detail := e }

/-- Modelled from the spec: the external metadata-update call (section 4.6 /
section 8). When the identifier is present in the remote state the call
succeeds and reports the identifier and the new name; when it is absent the
call fails. -/
def driveUpdateCall (state : DriveState) : UpdateRequest → Except String CreatedFile :=
  fun req =>
    if state.any (fun f => f.id == req.fileId) then
      .ok { id := req.fileId, name := req.bodyName }
    else
      .error ("File not found: " ++ req.fileId)

/-- Modelled from the spec: the remote state after a successful update call —
the named file carries the new display name, everything else is unchanged. -/
def driveUpdateState (state : DriveState) (req : UpdateRequest) : DriveState :=
  if state.any (fun f => f.id == req.fileId) then
    state.map fun f => if f.id == req.fileId then { f with name := req.bodyName } else f
  else
    state

/-- One `PATCH /rename/{file_id}` round-trip against a modelled remote state:
the next remote state and the HTTP outcome. -/
def renameStep (state : DriveState) (file_id new_name : String) :
    DriveState × Except HTTPError RenameResponse :=
  (driveUpdateState state (renameUpdateRequest file_id new_name),
   rename_file file_id new_name (driveUpdateCall state))

/-- Modelled from the spec: the external delete call (section 4.5 / section
8) — succeeds when the identifier is present, fails (not found) when absent. -/
def driveDeleteCall (state : DriveState) : String → Except String Unit :=
  fun fid =>
    if state.any (fun f => f.id == fid) then .ok () else .error ("File not found: " ++ fid)

/-- Modelled from the spec: the remote state after a successful delete call. -/
def driveDeleteState (state : DriveState) (fid : String) : DriveState :=
  state.filter fun f => !(f.id == fid)

/-- One `DELETE /delete/{file_id}` round-trip against a modelled remote
state: the next remote state and the HTTP outcome. -/
def deleteStep (state : DriveState) (file_id : String) :
    DriveState × Except HTTPError MessageResponse :=
  match driveDeleteCall state file_id with
  | .ok _ => (driveDeleteState state file_id, delete_file file_id (driveDeleteCall state))
  | .error _ => (state, delete_file file_id (driveDeleteCall state))

/-! ### Substring helper lemmas -/

theorem startsWithChars_imp_hasSub (l s : List Char)
    (h : startsWithChars l s = true) : hasSubChars s l = true := by
  cases l with
  | nil =>
    cases s with
    | nil => rfl
    | cons b bs => simp [startsWithChars] at h
  | cons a t => simp [hasSubChars, h]

theorem startsWith_cons_hasSub (l : List Char) (c : Char) (s : List Char)
    (h : startsWithChars l (c :: s) = true) : hasSubChars s l = true := by
  cases l with
  | nil => simp [startsWithChars] at h
  | cons a t =>
    simp only [startsWithChars, Bool.and_eq_true] at h
    have ht := startsWithChars_imp_hasSub t s h.2
    simp [hasSubChars, ht]

theorem hasSubChars_cons_sub (c : Char) (s : List Char) (hay : List Char)
    (h : hasSubChars (c :: s) hay = true) : hasSubChars s hay = true := by
  induction hay with
  | nil => simp [hasSubChars, startsWithChars] at h
  | cons a t ih =>
    simp only [hasSubChars, Bool.or_eq_true] at h
    rcases h with h | h
    · exact startsWith_cons_hasSub (a :: t) c s h
    · have ht := ih h
      simp [hasSubChars, ht]

theorem substrOf_dot_drop (e name : String)
    (h : substrOf ("." ++ e) name = true) : substrOf e name = true := by
  have hd : ("." ++ e).data = '.' :: e.data := rfl
  unfold substrOf at h ⊢
  rw [hd] at h
  exact hasSubChars_cons_sub '.' e.data name.data h

/-! ### Claim theorems -/

/-- Claim C6: for every list response, the `count` field equals the length of
the `files` list returned in the same response. -/
theorem list_count_matches_files_length (folderId : String)
    (extension : Option String) (state : DriveState) :
    (list_files folderId extension state).count =
      (list_files folderId extension state).files.length := rfl

/-- Claim C5: the create call sent by the upload operation carries metadata
whose name is the declared filename and whose parents list is exactly the
single configured folder identifier, and on success the operation returns the
identifier and name assigned by the remote service. -/
theorem upload_request_metadata_and_response (folderId : String)
    (file : UploadFileIn) (create : CreateRequest → Except String CreatedFile)
    (c : CreatedFile) (h : create (uploadCreateRequest folderId file) = .ok c) :
    (uploadCreateRequest folderId file).metadata.name = file.filename ∧
    (uploadCreateRequest folderId file).metadata.parents = [folderId] ∧
    upload_file folderId file create = .ok { id := c.id, name := c.name } := by
  refine ⟨rfl, rfl, ?_⟩
  unfold upload_file
  rw [h]

theorem upload_request_metadata_and_response_witness :
    (uploadCreateRequest "folder1" ⟨"note.txt", "text/plain", [104, 105]⟩).metadata.name = "note.txt" ∧
    (uploadCreateRequest "folder1" ⟨"note.txt", "text/plain", [104, 105]⟩).metadata.parents = ["folder1"] ∧
    upload_file "folder1" ⟨"note.txt", "text/plain", [104, 105]⟩
      (fun _ => .ok ⟨"id9", "note.txt"⟩) = .ok { id := "id9", name := "note.txt" } :=
  upload_request_metadata_and_response "folder1" ⟨"note.txt", "text/plain", [104, 105]⟩
    (fun _ => .ok ⟨"id9", "note.txt"⟩) ⟨"id9", "note.txt"⟩ rfl

/-- Claim C3: if either required environment setting is absent at startup, the
process fails with the fatal configuration error, registers no HTTP route, and
never produces an application value (so the failure cannot degrade to
per-request errors). -/
theorem startup_missing_env_fails (env : Env)
    (h : env.googleServiceAccountFile = none ∨ env.googleDriveFolderId = none) :
    startup env = .error "Missing GOOGLE_SERVICE_ACCOUNT_FILE or GOOGLE_DRIVE_FOLDER_ID in .env" ∧
    registeredRoutes (startup env) = [] ∧
    ∀ a : App, startup env ≠ .ok a := by
  have hc : (!strTruthy env.googleServiceAccountFile ||
      !strTruthy env.googleDriveFolderId) = true := by
    rcases h with h | h <;> simp [h, strTruthy]
  have h1 : startup env =
      .error "Missing GOOGLE_SERVICE_ACCOUNT_FILE or GOOGLE_DRIVE_FOLDER_ID in .env" := by
    unfold startup
    simp [hc]
  refine ⟨h1, by rw [h1]; rfl, ?_⟩
  intro a ha
  rw [h1] at ha
  cases ha

theorem startup_missing_env_fails_witness :
    startup ⟨none, some "folder1"⟩ =
      .error "Missing GOOGLE_SERVICE_ACCOUNT_FILE or GOOGLE_DRIVE_FOLDER_ID in .env" ∧
    registeredRoutes (startup ⟨none, some "folder1"⟩) = [] :=
  ⟨(startup_missing_env_fails ⟨none, some "folder1"⟩ (Or.inl rfl)).1,
   (startup_missing_env_fails ⟨none, some "folder1"⟩ (Or.inl rfl)).2.1⟩

/-- Claim C1: every remote-contacting operation (download, upload, delete,
rename) maps any exception of a remote call to exactly a 500 error whose
detail is the exception's message; and conversely every error any of these
handlers produces is a 500 carrying the message of the remote exception that
caused it — no other error shape exists. -/
theorem remote_failure_maps_to_500 (e fid new_name folderId fname : String)
    (file : UploadFileIn) (steps : List ChunkStep) :
    download_file fid (fun _ => .error e) (fun _ => .ok fname) = .error ⟨500, e⟩ ∧
    download_file fid (fun _ => .ok steps) (fun _ => .error e) = .error ⟨500, e⟩ ∧
    upload_file folderId file (fun _ => .error e) = .error ⟨500, e⟩ ∧
    delete_file fid (fun _ => .error e) = .error ⟨500, e⟩ ∧
    rename_file fid new_name (fun _ => .error e) = .error ⟨500, e⟩ ∧
    (∀ gm gn err, download_file fid gm gn = .error err →
      err.status = 500 ∧ (gm fid = .error err.detail ∨
        ∃ steps2, gm fid = .ok steps2 ∧ gn fid = .error err.detail)) ∧
    (∀ create err, upload_file folderId file create = .error err →
      err.status = 500 ∧ create (uploadCreateRequest folderId file) = .error err.detail) ∧
    (∀ dc err, delete_file fid dc = .error err →
      err.status = 500 ∧ dc fid = .error err.detail) ∧
    (∀ upd err, rename_file fid new_name upd = .error err →
      err.status = 500 ∧ upd (renameUpdateRequest fid new_name) = .error err.detail) := by
  refine ⟨rfl, rfl, rfl, rfl, rfl, ?_, ?_, ?_, ?_⟩
  · intro gm gn err
    unfold download_file
    cases hgm : gm fid with
    | error e2 =>
      intro h
      injection h with h2
      subst h2
      exact ⟨rfl, Or.inl rfl⟩
    | ok steps2 =>
      cases hgn : gn fid with
      | error e2 =>
        intro h
        injection h with h2
        subst h2
        exact ⟨rfl, Or.inr ⟨steps2, rfl, rfl⟩⟩
      | ok fname2 =>
        intro h
        cases h
  · intro create err
    unfold upload_file
    cases hc : create (uploadCreateRequest folderId file) with
    | error e2 =>
      intro h
      injection h with h2
      subst h2
      exact ⟨rfl, rfl⟩
    | ok c =>
      intro h
      cases h
  · intro dc err
    unfold delete_file
    cases hd : dc fid with
    | error e2 =>
      intro h
      injection h with h2
      subst h2
      exact ⟨rfl, rfl⟩
    | ok u =>
      intro h
      cases h
  · intro upd err
    unfold rename_file
    cases hu : upd (renameUpdateRequest fid new_name) with
    | error e2 =>
      intro h
      injection h with h2
      subst h2
      exact ⟨rfl, rfl⟩
    | ok c =>
      intro h
      cases h

theorem remote_failure_maps_to_500_witness :
    download_file "f1" (fun _ => .error "boom") (fun _ => .ok "n.txt") = .error ⟨500, "boom"⟩ ∧
    HTTPError.status ⟨500, "boom"⟩ = 500 ∧
    (fun _ : String => (Except.error "boom" : Except String Unit)) "f1" =
      .error (HTTPError.detail ⟨500, "boom"⟩) := by
  have h := remote_failure_maps_to_500 "boom" "f1" "nn" "folder1" "n.txt"
    ⟨"a", "t", []⟩ []
  exact ⟨h.1, (h.2.2.2.2.2.2.2.1 (fun _ => .error "boom") ⟨500, "boom"⟩ rfl).1,
    (h.2.2.2.2.2.2.2.1 (fun _ => .error "boom") ⟨500, "boom"⟩ rfl).2⟩

/-- Membership in a listing result, unfolded once for reuse. -/
theorem mem_driveList_iff (state : DriveState) (q : DriveQuery) (f : DriveFile) :
    f ∈ driveList state q ↔ f ∈ state ∧ queryMatches q f = true := by
  simp [driveList, List.mem_filter]

/-- Claim C2: the listing query selects exactly the non-trashed items whose
parents include the configured folder, and when a (truthy) extension filter is
supplied it additionally constrains the result, so that every returned file
also has the supplied extension as a substring of its name. -/
theorem list_query_selects (folderId : String) (state : DriveState) :
    (∀ f, f ∈ driveList state (listQuery folderId none) ↔
      f ∈ state ∧ f.parents.contains folderId = true ∧ f.trashed = false) ∧
    (∀ e, e ≠ "" → ∀ f, f ∈ driveList state (listQuery folderId (some e)) →
      f.parents.contains folderId = true ∧ f.trashed = false ∧
        substrOf e f.name = true) := by
  constructor
  · intro f
    rw [mem_driveList_iff]
    simp [queryMatches, listQuery, strTruthy]
  · intro e he f hf
    have ht : strTruthy (some e) = true := by simp [strTruthy, he]
    rw [mem_driveList_iff] at hf
    have hq := hf.2
    simp only [queryMatches, listQuery, ht, if_true, Option.getD,
      Bool.and_eq_true, Bool.not_eq_true'] at hq
    exact ⟨hq.1.1, hq.1.2, substrOf_dot_drop e f.name hq.2⟩

theorem list_query_selects_witness :
    ((⟨"id1", "a.pdf", "application/pdf", "t1", ["folder1"], false⟩ : DriveFile) ∈
      driveList [⟨"id1", "a.pdf", "application/pdf", "t1", ["folder1"], false⟩,
                 ⟨"id2", "b.txt", "text/plain", "t2", ["folder1"], false⟩]
        (listQuery "folder1" none)) ∧
    (List.contains ["folder1"] "folder1" = true ∧ false = false ∧
      substrOf "pdf" "a.pdf" = true) := by
  have h := list_query_selects "folder1"
    [⟨"id1", "a.pdf", "application/pdf", "t1", ["folder1"], false⟩,
     ⟨"id2", "b.txt", "text/plain", "t2", ["folder1"], false⟩]
  refine ⟨(h.1 ⟨"id1", "a.pdf", "application/pdf", "t1", ["folder1"], false⟩).mpr
      ⟨by simp, by decide, rfl⟩, ?_⟩
  exact h.2 "pdf" (by decide)
    ⟨"id1", "a.pdf", "application/pdf", "t1", ["folder1"], false⟩ (by decide)

/-- Claim C10: an empty extension string is treated exactly like an absent
one — the filter clause is omitted, the built query string and the whole
response coincide with the no-filter case, and every non-trashed item of the
configured folder is returned. -/
theorem empty_extension_treated_as_absent (folderId : String) (state : DriveState) :
    buildQuery folderId (some "") = buildQuery folderId none ∧
    listQuery folderId (some "") = listQuery folderId none ∧
    list_files folderId (some "") state = list_files folderId none state ∧
    ∀ f, f ∈ (list_files folderId (some "") state).files ↔
      f ∈ state ∧ f.parents.contains folderId = true ∧ f.trashed = false := by
  have hq : listQuery folderId (some "") = listQuery folderId none := by
    simp [listQuery, strTruthy]
  refine ⟨by simp [buildQuery, strTruthy], hq, by simp [list_files, hq], ?_⟩
  intro f
  show f ∈ driveList state (listQuery folderId (some "")) ↔ _
  rw [hq, mem_driveList_iff]
  simp [queryMatches, listQuery, strTruthy]

theorem empty_extension_treated_as_absent_witness :
    buildQuery "folder1" (some "") = buildQuery "folder1" none ∧
    list_files "folder1" (some "")
        [⟨"id1", "a.pdf", "application/pdf", "t1", ["folder1"], false⟩] =
      list_files "folder1" none
        [⟨"id1", "a.pdf", "application/pdf", "t1", ["folder1"], false⟩] := by
  have h := empty_extension_treated_as_absent "folder1"
    [⟨"id1", "a.pdf", "application/pdf", "t1", ["folder1"], false⟩]
  exact ⟨h.1, h.2.2.1⟩

/-- The chunk loop on a trace that reports done exactly at its last step
accumulates every fetched chunk into the buffer. -/
theorem chunkLoop_eq_join (init : List ChunkStep) (c : List Nat) (buf : List Nat)
    (h : ∀ p ∈ init, p.2 = false) :
    chunkLoop buf (init ++ [(c, true)]) = buf ++ (init.map Prod.fst).flatten ++ c := by
  induction init generalizing buf with
  | nil => simp [chunkLoop]
  | cons a t ih =>
    have ha : a.2 = false := h a (by simp)
    have ht : ∀ p ∈ t, p.2 = false := fun p hp => h p (by simp [hp])
    simp [chunkLoop, ha, ih (buf ++ a.1) ht]

/-- Claim C4: a successful download responds with the concatenation of all
chunks the remote transfer fetched, media type `application/octet-stream`,
and `Content-Disposition: attachment; filename=<name>` where the name comes
from the second remote metadata call for the same identifier. -/
theorem download_success_response (file_id fname : String)
    (init : List ChunkStep) (c : List Nat)
    (getMediaChunks : String → Except String (List ChunkStep))
    (getName : String → Except String String)
    (hm : getMediaChunks file_id = .ok (init ++ [(c, true)]))
    (hn : getName file_id = .ok fname)
    (hinit : ∀ p ∈ init, p.2 = false) :
    download_file file_id getMediaChunks getName =
      .ok { body := ((init ++ [(c, true)]).map Prod.fst).flatten
            mediaType := "application/octet-stream"
            contentDisposition := "attachment; filename=" ++ fname } := by
  unfold download_file
  rw [hm, hn]
  have hb := chunkLoop_eq_join init c [] hinit
  simp [hb]

theorem download_success_response_witness :
    download_file "f1" (fun _ => .ok [([1, 2], false), ([3], true)])
        (fun _ => .ok "a.bin") =
      .ok { body := [1, 2, 3]
            mediaType := "application/octet-stream"
            contentDisposition := "attachment; filename=a.bin" } := by
  have h := download_success_response "f1" "a.bin" [([1, 2], false)] [3]
    (fun _ => .ok [([1, 2], false), ([3], true)]) (fun _ => .ok "a.bin")
    rfl rfl (by decide)
  exact h

/-- Claim C8: deleting an identifier present in the remote state twice in
sequence yields a successful confirmation on the first call and a 500
failure on the second, never a silent success. -/
theorem delete_twice_second_fails (state : DriveState) (file_id : String)
    (h : ∃ f ∈ state, f.id = file_id) :
    (deleteStep state file_id).2 =
      .ok { message := "File " ++ file_id ++ " deleted successfully" } ∧
    (deleteStep (deleteStep state file_id).1 file_id).2 =
      .error { status := 500, detail := "File not found: " ++ file_id } ∧
    ∀ m, (deleteStep (deleteStep state file_id).1 file_id).2 ≠ .ok m := by
  have hany : state.any (fun f => f.id == file_id) = true := by
    obtain ⟨f, hf, hid⟩ := h
    exact List.any_eq_true.mpr ⟨f, hf, by simp [hid]⟩
  have hstep1 : deleteStep state file_id =
      (driveDeleteState state file_id,
        .ok { message := "File " ++ file_id ++ " deleted successfully" }) := by
    simp [deleteStep, driveDeleteCall, delete_file, hany]
  have hany1 : (driveDeleteState state file_id).any (fun f => f.id == file_id) = false := by
    rw [Bool.eq_false_iff]
    intro hcon
    obtain ⟨x, hx, hxid⟩ := List.any_eq_true.mp hcon
    have hxp := (List.mem_filter.mp hx).2
    rw [hxid] at hxp
    cases hxp
  have hstep2 : (deleteStep (driveDeleteState state file_id) file_id).2 =
      .error { status := 500, detail := "File not found: " ++ file_id } := by
    simp [deleteStep, driveDeleteCall, delete_file, hany1]
  refine ⟨by rw [hstep1], by rw [hstep1]; exact hstep2, ?_⟩
  intro m hm
  rw [hstep1] at hm
  rw [hstep2] at hm
  cases hm

theorem delete_twice_second_fails_witness :
    (deleteStep [⟨"id1", "a.pdf", "application/pdf", "t1", ["folder1"], false⟩] "id1").2 =
      .ok { message := "File " ++ "id1" ++ " deleted successfully" } ∧
    (deleteStep
        (deleteStep [⟨"id1", "a.pdf", "application/pdf", "t1", ["folder1"], false⟩] "id1").1
        "id1").2 =
      .error { status := 500, detail := "File not found: " ++ "id1" } := by
  have h := delete_twice_second_fails
    [⟨"id1", "a.pdf", "application/pdf", "t1", ["folder1"], false⟩] "id1"
    ⟨⟨"id1", "a.pdf", "application/pdf", "t1", ["folder1"], false⟩, by simp, rfl⟩
  exact ⟨h.1, h.2.1⟩

/-- A metadata update never changes identifiers, so `any`-searches by
identifier are unaffected by it. -/
theorem driveUpdateState_any_id (state : DriveState) (req : UpdateRequest)
    (fid : String) :
    (driveUpdateState state req).any (fun f => f.id == fid) =
      state.any (fun f => f.id == fid) := by
  unfold driveUpdateState
  split
  · rw [List.any_map]
    have hfun : ((fun f : DriveFile => f.id == fid) ∘
        fun f => if f.id == req.fileId then { f with name := req.bodyName } else f) =
        fun f : DriveFile => f.id == fid := by
      funext a
      dsimp only [Function.comp]
      split <;> rfl
    rw [hfun]
  · rfl

/-- After a successful update, every file carrying the updated identifier
carries the requested name. -/
theorem driveUpdateState_name (state : DriveState) (req : UpdateRequest)
    (f : DriveFile) (hf : f ∈ driveUpdateState state req) (hid : f.id = req.fileId)
    (hany : state.any (fun g => g.id == req.fileId) = true) :
    f.name = req.bodyName := by
  rw [driveUpdateState, if_pos hany] at hf
  obtain ⟨a, ha, hga⟩ := List.mem_map.mp hf
  by_cases hcase : (a.id == req.fileId) = true
  · rw [if_pos hcase] at hga
    subst hga
    rfl
  · rw [if_neg hcase] at hga
    subst hga
    exact absurd (by simpa using hid) hcase

/-- Claim C7: rename is idempotent — for a file identifier present in the
remote state, renaming twice to the same name succeeds both times and leaves
the file's final name equal to that name. -/
theorem rename_idempotent (state : DriveState) (file_id new_name : String)
    (h : ∃ f ∈ state, f.id = file_id) :
    (renameStep state file_id new_name).2 =
      .ok { id := file_id, new_name := new_name } ∧
    (renameStep (renameStep state file_id new_name).1 file_id new_name).2 =
      .ok { id := file_id, new_name := new_name } ∧
    ∀ f ∈ (renameStep (renameStep state file_id new_name).1 file_id new_name).1,
      f.id = file_id → f.name = new_name := by
  have hany : state.any (fun f => f.id == file_id) = true := by
    obtain ⟨f, hf, hid⟩ := h
    exact List.any_eq_true.mpr ⟨f, hf, by simp [hid]⟩
  have hany1 : (renameStep state file_id new_name).1.any
      (fun f => f.id == file_id) = true := by
    show (driveUpdateState state (renameUpdateRequest file_id new_name)).any _ = true
    rw [driveUpdateState_any_id]
    exact hany
  refine ⟨?_, ?_, ?_⟩
  · show rename_file file_id new_name (driveUpdateCall state) = _
    simp [rename_file, driveUpdateCall, renameUpdateRequest, hany]
  · show rename_file file_id new_name
      (driveUpdateCall (renameStep state file_id new_name).1) = _
    simp [rename_file, driveUpdateCall, renameUpdateRequest, hany1]
  · intro f hf hfid
    exact driveUpdateState_name (renameStep state file_id new_name).1
      (renameUpdateRequest file_id new_name) f hf hfid hany1

theorem rename_idempotent_witness :
    (renameStep [⟨"id1", "old.txt", "text/plain", "t1", ["folder1"], false⟩]
        "id1" "new.txt").2 = .ok { id := "id1", new_name := "new.txt" } ∧
    (renameStep
        (renameStep [⟨"id1", "old.txt", "text/plain", "t1", ["folder1"], false⟩]
          "id1" "new.txt").1 "id1" "new.txt").2 =
      .ok { id := "id1", new_name := "new.txt" } := by
  have h := rename_idempotent
    [⟨"id1", "old.txt", "text/plain", "t1", ["folder1"], false⟩] "id1" "new.txt"
    ⟨⟨"id1", "old.txt", "text/plain", "t1", ["folder1"], false⟩, by simp, rfl⟩
  exact ⟨h.1, h.2.1⟩

/-- Running the loop from call index `i + 1` is running it from index `0`
over the stream shifted by one. -/
theorem downloadLoop_shift (nextChunk : Nat → ChunkStep) :
    ∀ fuel i buf, downloadLoop nextChunk fuel (i + 1) buf =
      downloadLoop (fun k => nextChunk (k + 1)) fuel i buf := by
  intro fuel
  induction fuel with
  | zero => intro i buf; rfl
  | succ m ih =>
    intro i buf
    simp only [downloadLoop]
    rw [ih (i + 1)]

/-- Splitting the concatenation of `n + 2` chunks at the first one. -/
theorem flatten_range_shift (g : Nat → List Nat) (n : Nat) :
    ((List.range (n + 1 + 1)).map fun i => g i).flatten =
      g 0 ++ ((List.range (n + 1)).map fun i => g (i + 1)).flatten := by
  rw [List.range_succ_eq_map]
  have hcomp : ((fun i => g i) ∘ Nat.succ) = fun i => g (i + 1) := funext fun i => rfl
  simp only [List.map_cons, List.flatten_cons, List.map_map, hcomp]

/-- If the transfer first reports done at call `n`, then with more than `n`
units of fuel the loop returns the concatenation of the chunks of calls
`0..n` appended to the initial buffer. -/
theorem downloadLoop_done (nextChunk : Nat → ChunkStep) :
    ∀ n, (nextChunk n).2 = true → (∀ m, m < n → (nextChunk m).2 = false) →
      ∀ fuel buf, n < fuel →
        downloadLoop nextChunk fuel 0 buf =
          some (buf ++ ((List.range (n + 1)).map fun i => (nextChunk i).1).flatten) := by
  intro n
  induction n generalizing nextChunk with
  | zero =>
    intro hn _ fuel buf hfuel
    obtain ⟨m, rfl⟩ : ∃ m, fuel = m + 1 := ⟨fuel - 1, by omega⟩
    simp [downloadLoop, hn, List.range_succ]
  | succ n ih =>
    intro hn hmin fuel buf hfuel
    obtain ⟨m, rfl⟩ : ∃ m, fuel = m + 1 := ⟨fuel - 1, by omega⟩
    have h0 : (nextChunk 0).2 = false := hmin 0 (by omega)
    have hstep : downloadLoop nextChunk (m + 1) 0 buf =
        downloadLoop (fun k => nextChunk (k + 1)) m 0 (buf ++ (nextChunk 0).1) := by
      simp only [downloadLoop, h0, Bool.false_eq_true, if_false]
      exact downloadLoop_shift nextChunk m 0 (buf ++ (nextChunk 0).1)
    rw [hstep, ih (fun k => nextChunk (k + 1)) hn
      (fun m hm => hmin (m + 1) (by omega)) m (buf ++ (nextChunk 0).1) (by omega)]
    congr 1
    rw [flatten_range_shift (fun i => (nextChunk i).1) n]
    simp [List.append_assoc]

/-- Claim C9: the download chunk loop terminates for every transfer in which
the remote eventually reports completion — it is a bounded iteration that
accumulates each fetched chunk into the buffer and exits exactly at the first
call reporting done. -/
theorem download_loop_terminates (nextChunk : Nat → ChunkStep)
    (h : ∃ n, (nextChunk n).2 = true) :
    ∃ n, (nextChunk n).2 = true ∧ (∀ m, m < n → (nextChunk m).2 = false) ∧
      ∀ fuel, n < fuel →
        downloadLoop nextChunk fuel 0 [] =
          some (((List.range (n + 1)).map fun i => (nextChunk i).1).flatten) := by
  refine ⟨Nat.find h, Nat.find_spec h, fun m hm => by simpa using Nat.find_min h hm,
    fun fuel hf => ?_⟩
  have hdone := downloadLoop_done nextChunk (Nat.find h) (Nat.find_spec h)
    (fun m hm => by simpa using Nat.find_min h hm) fuel [] hf
  simpa using hdone

theorem download_loop_terminates_witness :
    downloadLoop (fun i => ([i + 10], i == 1)) 3 0 [] = some [10, 11] := by
  obtain ⟨n, hn, hmin, hloop⟩ :=
    download_loop_terminates (fun i => ([i + 10], i == 1)) ⟨1, rfl⟩
  have hn1 : n = 1 := by simpa using hn
  subst hn1
  simpa using hloop 3 (by omega)

end UploadApp
